import Mathlib

/-!
Shallow embedding of the acoustic FSK modem (audio-modem.js and main.js):
packet framing, symbol packing, the decode accumulators, the ring decode
buffer, the energy gate and Goertzel filter bank, and the modem session
state machine, together with theorems settling the specification claims.

Numbers: PCM samples and configuration values are modelled as rationals
(the JS floats are exact on every value the claims use); byte and symbol
values are naturals; the RMS energy and the Goertzel power, which use
Math.sqrt / Math.sin / Math.cos, are modelled over the reals.
-/

/-- CONTROL_BYTES.START from the source. -/
def CONTROL_START : ℕ := 0x02

/-- CONTROL_BYTES.END from the source. -/
def CONTROL_END : ℕ := 0x03

/-- Models `data.set(src, start)` on a typed array: write the bytes of
`src` into `l` starting at index `start`. -/
def setRange (l : List ℕ) (start : ℕ) : List ℕ → List ℕ
  | [] => l
  | b :: bs => setRange (l.set start b) (start + 1) bs

/-- buildPacket from the source: allocate a zero-filled array of
`2 + payload.length + 1` bytes, write START at index 0, the payload from
index 1, and END at the last index.  (The allocation is one byte longer
than START + payload + END, so the byte before END stays 0.) -/
def buildPacket (payloadBytes : List ℕ) : List ℕ :=
  let data := List.replicate (2 + payloadBytes.length + 1) 0
  let data := data.set 0 CONTROL_START
  let data := setRange data 1 payloadBytes
  data.set (data.length - 1) CONTROL_END

/-- The scanning loop of extractFrames: `collecting` and `current` mirror
the mutable loop state. -/
def extractFramesGo : List ℕ → Bool → List ℕ → List (List ℕ)
  | [], _, _ => []
  | byte :: rest, false, current =>
    if byte = CONTROL_START then extractFramesGo rest true []
    else extractFramesGo rest false current
  | byte :: rest, true, current =>
    if byte = CONTROL_END then current :: extractFramesGo rest false []
    else extractFramesGo rest true (current ++ [byte])

/-- extractFrames from the source: scan the byte stream, enter collecting
state on START, emit the collected span on END. -/
def extractFrames (buffer : List ℕ) : List (List ℕ) :=
  extractFramesGo buffer false []

/-- The inner while-loop of packetToSamples: while `bitCount ≥ B`, mask
off the low B bits as one symbol and shift them out.  `fuel` bounds the
iteration count; the JS loop removes B ≥ 1 bits per pass, so `bitCount`
passes always suffice (for B = 0 the JS loop would not terminate).
Returns (emitted symbols, bitBuffer, bitCount). -/
def drainBits (B : ℕ) : ℕ → ℕ → ℕ → List ℕ × ℕ × ℕ
  | 0, bitBuffer, bitCount => ([], bitBuffer, bitCount)
  | fuel + 1, bitBuffer, bitCount =>
    if B ≤ bitCount then
      let symbol := Nat.land bitBuffer (Nat.shiftLeft 1 B - 1)
      let r := drainBits B fuel (Nat.shiftRight bitBuffer B) (bitCount - B)
      (symbol :: r.1, r.2.1, r.2.2)
    else ([], bitBuffer, bitCount)

/-- The byte loop of packetToSamples: OR each packet byte into the rolling
bit buffer above the `bitCount` bits already there, then drain whole
symbols. -/
def packetToSymbolsAux (B : ℕ) : List ℕ → ℕ → ℕ → List ℕ
  | [], _, _ => []
  | byte :: rest, bitBuffer, bitCount =>
    let bb := Nat.lor bitBuffer (Nat.shiftLeft byte bitCount)
    let bc := bitCount + 8
    let r := drainBits B bc bb bc
    r.1 ++ packetToSymbolsAux B rest r.2.1 r.2.2

/-- The symbol sequence synthesized by packetToSamples for a packet
(little-endian bit packing, one symbol per B bits), exactly the order in
which symbol tones are laid out in the waveform. -/
def packetToSymbols (B : ℕ) (packet : List ℕ) : List ℕ :=
  packetToSymbolsAux B packet 0 0

/-- The decode-side accumulator state: the bit queue of handleDetectedSymbol
(holding B-bit symbol values), the byte queue of collectByte, and the
payloads of the message events emitted so far. -/
structure DecState where
  bitQueue : List ℕ
  byteBuffer : List ℕ
  messages : List (List ℕ)
deriving DecidableEq, Repr

/-- The while-loop of handleDetectedSymbol assembling one byte: while the
queue is nonempty and `shift < 8`, OR the next symbol value in at `shift`
and advance `shift` by B.  Returns (byte, remaining queue). -/
def assembleByte (B : ℕ) : List ℕ → ℕ → ℕ → ℕ × List ℕ
  | [], byte, _ => (byte, [])
  | v :: rest, byte, shift =>
    if shift < 8 then
      assembleByte B rest (Nat.lor byte (Nat.shiftLeft v shift)) (shift + B)
    else (byte, v :: rest)

/-- Models `this._byteBuffer.push(byte)` followed by the 512-entry bound
check (`shift()` drops the oldest byte when the length exceeds 512). -/
def pushBounded (buf : List ℕ) (byte : ℕ) : List ℕ :=
  let buf := buf ++ [byte]
  if 512 < buf.length then buf.tail else buf

/-- collectByte from the source: push the byte into the bounded byte
queue, scan it with extractFrames; when at least one frame was found,
emit the last frame as one message event and clear both the byte queue
and the bit queue. -/
def collectByte (st : DecState) (byte : ℕ) : DecState :=
  let buf := pushBounded st.byteBuffer byte
  let frames := extractFrames buf
  match frames.getLast? with
  | none => { st with byteBuffer := buf }
  | some f => { bitQueue := [], byteBuffer := [], messages := st.messages ++ [f] }

/-- handleDetectedSymbol from the source: push the detected symbol value
onto the bit queue; once the queue holds at least 8 / B entries, assemble
one byte little-endian and hand `byte & 0xff` to collectByte.  The JS
comparison `length >= 8 / bitsPerSymbol` divides exactly; it is written
here in the equivalent integer form `8 ≤ length * B` (for B = 0 the JS
division gives Infinity and the comparison is likewise never true). -/
def handleDetectedSymbol (B : ℕ) (st : DecState) (symbol : ℕ) : DecState :=
  let Q := st.bitQueue ++ [symbol]
  if 8 ≤ Q.length * B then
    let r := assembleByte B Q 0 0
    collectByte { st with bitQueue := r.2 } (Nat.land r.1 0xff)
  else { st with bitQueue := Q }

/-- Feeding a sequence of detected symbols through handleDetectedSymbol,
as the decode loop does for each accepted symbol window in order. -/
def runSymbols (B : ℕ) (st : DecState) (syms : List ℕ) : DecState :=
  syms.foldl (handleDetectedSymbol B) st

/-- The empty accumulator state (no symbols, no bytes, no messages yet). -/
def initialDecState : DecState := ⟨[], [], []⟩

/-- Math.round on a rational, as JS computes it: floor(x + 1/2). -/
def jsRound (q : ℚ) : ℤ := ⌊q + 1 / 2⌋

/-- The Configuration record.  DEFAULT_CONFIG carries no minEnergy key, and
the spread merge in the constructor keeps any minEnergy the caller passes,
so that field is an Option. -/
structure ModemConfig where
  sampleRate : ℚ
  bitsPerSymbol : ℕ
  symbolDuration : ℚ
  baseFrequency : ℚ
  frequencyStep : ℚ
  guardDuration : ℚ
  amplitude : ℚ
  minEnergy : Option ℚ
deriving DecidableEq, Repr

/-- DEFAULT_CONFIG from the source (0.04 = 1/25, 0.12 = 3/25, 0.3 = 3/10). -/
def DEFAULT_CONFIG : ModemConfig :=
  { sampleRate := 48000
    bitsPerSymbol := 4
    symbolDuration := 1 / 25
    baseFrequency := 1200
    frequencyStep := 120
    guardDuration := 3 / 25
    amplitude := 3 / 10
    minEnergy := none }

/-- A caller-supplied configuration object: any subset of the recognized
keys may be present. -/
structure ConfigUpdate where
  sampleRate : Option ℚ := none
  bitsPerSymbol : Option ℕ := none
  symbolDuration : Option ℚ := none
  baseFrequency : Option ℚ := none
  frequencyStep : Option ℚ := none
  guardDuration : Option ℚ := none
  amplitude : Option ℚ := none
  minEnergy : Option ℚ := none
deriving DecidableEq, Repr

/-- The object-spread merge `{ ...DEFAULT_CONFIG, ...config }` in the
constructor: a key present in the update wins over the base value. -/
def mergeConfig (base : ModemConfig) (u : ConfigUpdate) : ModemConfig :=
  { sampleRate := u.sampleRate.getD base.sampleRate
    bitsPerSymbol := u.bitsPerSymbol.getD base.bitsPerSymbol
    symbolDuration := u.symbolDuration.getD base.symbolDuration
    baseFrequency := u.baseFrequency.getD base.baseFrequency
    frequencyStep := u.frequencyStep.getD base.frequencyStep
    guardDuration := u.guardDuration.getD base.guardDuration
    amplitude := u.amplitude.getD base.amplitude
    minEnergy := u.minEnergy.or base.minEnergy }

/-- symbolSamples as computed in init():
`Math.round(audioContext.sampleRate * symbolDuration)`, the AudioContext
being created with the configured sample rate. -/
def sessionSymbolSamples (cfg : ModemConfig) : ℕ :=
  (jsRound (cfg.sampleRate * cfg.symbolDuration)).toNat

/-- The sample count of packetToSamples for a packet of `packetLen` bytes:
`totalSymbols * symbolSamples + guardSamples * 2` with
`totalSymbols = packetLen * (8 / bitsPerSymbol)` (JS rational division)
and `guardSamples = Math.round(sampleRate * guardDuration)`. -/
def packetToSamplesTotal (cfg : ModemConfig) (contextSampleRate : ℚ)
    (symbolSamples : ℕ) (packetLen : ℕ) : ℚ :=
  let guardSamples := (jsRound (contextSampleRate * cfg.guardDuration)).toNat
  let totalSymbols : ℚ := (packetLen : ℚ) * (8 / (cfg.bitsPerSymbol : ℚ))
  totalSymbols * (symbolSamples : ℚ) + (guardSamples : ℚ) * 2

/-- The length of the waveform produced by send(message) for a given
payload byte sequence: the packet is built by buildPacket and laid out by
packetToSamples with the session's symbolSamples. -/
def sendWaveformLength (cfg : ModemConfig) (payload : List ℕ) : ℚ :=
  packetToSamplesTotal cfg cfg.sampleRate (sessionSymbolSamples cfg)
    (buildPacket payload).length

/-- addToRingBuffer from the source: concatenate the new chunk onto the
ring buffer; if the result exceeds `symbolSamples * 64` samples, keep only
the most recent `symbolSamples * 64` (subarray from the end). -/
def addToRingBuffer (symbolSamples : ℕ) (ring chunk : List ℚ) : List ℚ :=
  let extended := ring ++ chunk
  let maxLength := symbolSamples * 64
  if maxLength < extended.length then extended.drop (extended.length - maxLength)
  else extended

/-- The suffix of the most recent `n` entries of a list (all of it when it
is shorter than `n`). -/
def lastN (n : ℕ) (l : List ℚ) : List ℚ := l.drop (l.length - n)

/-- The hardcoded `const minEnergy = 0.01` inside the decode loop. -/
def minEnergyLoop : ℚ := 1 / 100

/-- computeEnergy from the source: the RMS
`sqrt(sum(sample^2) / length)` of a slice. -/
noncomputable def computeEnergy (slice : List ℚ) : ℝ :=
  Real.sqrt ((slice.map fun (s : ℚ) => (s : ℝ) * (s : ℝ)).sum / (slice.length : ℝ))

/-- goertzel from the source: the single-bin power of the slice at the
target frequency, via the second-order recurrence
`q0 = 2 cos(omega) * q1 - q2 + sample`. -/
noncomputable def goertzel (sampleRate : ℚ) (buffer : List ℚ)
    (targetFrequency : ℚ) : ℝ :=
  let k := jsRound ((buffer.length : ℚ) * targetFrequency / sampleRate)
  let omega : ℝ := 2 * Real.pi * (k : ℝ) / (buffer.length : ℝ)
  let sine := Real.sin omega
  let cosine := Real.cos omega
  let coeff := 2 * cosine
  let q := buffer.foldl
    (fun (p : ℝ × ℝ) (s : ℚ) => (coeff * p.1 - p.2 + (s : ℝ), p.1)) (0, 0)
  let re := q.1 - q.2 * cosine
  let im := q.2 * sine
  re * re + im * im

open Classical in
/-- detectSymbol from the source: run the Goertzel filter bank over the
`2 ^ bitsPerSymbol` candidate frequencies, track the best bin, and return
it only when its power reaches the 0.001 discriminator. -/
noncomputable def detectSymbol (cfg : ModemConfig) (sampleRate : ℚ)
    (slice : List ℚ) : Option ℕ :=
  let binCount := Nat.shiftLeft 1 cfg.bitsPerSymbol
  let best := (List.range binCount).foldl
    (fun (best : Option ℕ × ℝ) (i : ℕ) =>
      let freq := cfg.baseFrequency + (i : ℚ) * cfg.frequencyStep
      let energy := goertzel sampleRate slice freq
      if best.2 < energy then (some i, energy) else best)
    (none, 0)
  if best.2 < 1 / 1000 then none else best.1

/-- What the decode loop does with one symbol-length slice: either the
slice is skipped by the RMS energy gate before the filter bank runs, or
the filter bank is scanned and its verdict recorded. -/
inductive SliceOutcome where
  | skipped
  | scanned (result : Option ℕ)

open Classical in
/-- The per-slice body of the decode loop: compare the slice's RMS energy
against the hardcoded 0.01 threshold (the loop reads no configured
minEnergy); below it, skip without running detectSymbol. -/
noncomputable def sliceStep (cfg : ModemConfig) (sampleRate : ℚ)
    (slice : List ℚ) : SliceOutcome :=
  if computeEnergy slice < (minEnergyLoop : ℝ) then .skipped
  else .scanned (detectSymbol cfg sampleRate slice)

/-- An event emitted through the callback sets: message events carry the
decoded frame payload (the source decodes it to text; the byte sequence is
the payload), status and error events carry their text. -/
inductive Event where
  | message (payload : List ℕ)
  | status (text : String)
  | error (text : String)
deriving DecidableEq, Repr

/-- The observable fields of a SimpleAudioModem instance.  The
AudioContext is modelled by the sample rate it was created with (none
before init creates it); the microphone stream and analyser node by
whether they are currently held. -/
structure ModemState where
  config : ModemConfig
  audioContextRate : Option ℚ
  microphoneStream : Bool
  analysisNode : Bool
  isListening : Bool
  symbolSamples : ℕ
  timeDomainBuffer : List ℚ
  ringBuffer : List ℚ
  bitQueue : List ℕ
  byteBuffer : List ℕ
deriving DecidableEq, Repr

/-- The constructor: merge the caller's options over DEFAULT_CONFIG; no
audio context yet, empty buffers, not listening. -/
def initialState (u : ConfigUpdate) : ModemState :=
  { config := mergeConfig DEFAULT_CONFIG u
    audioContextRate := none
    microphoneStream := false
    analysisNode := false
    isListening := false
    symbolSamples := 0
    timeDomainBuffer := []
    ringBuffer := []
    bitQueue := []
    byteBuffer := [] }

/-- init() from the source: if an AudioContext already exists, return
unchanged; otherwise create one at the configured sample rate and compute
symbolSamples and the two sample buffers from it. -/
def initContext (s : ModemState) : ModemState :=
  if s.audioContextRate.isSome then s
  else
    let rate := s.config.sampleRate
    let ss := (jsRound (rate * s.config.symbolDuration)).toNat
    { s with
      audioContextRate := some rate
      symbolSamples := ss
      timeDomainBuffer := List.replicate ss 0
      ringBuffer := List.replicate ss 0 }

/-- startListening from the source, with the microphone-permission result
of getUserMedia passed in.  Returns the new state, the emitted events, and
whether the capture device was requested.  Already listening: return at
once, requesting nothing and emitting nothing.  Permission denied: emit an
error event and rethrow (state otherwise untouched).  Granted: connect the
stream to a fresh analyser node, set the listening flag, emit a status
event, and start the decode loop. -/
def startListening (s : ModemState) (micGranted : Bool) :
    ModemState × List Event × Bool :=
  let s1 := initContext s
  if s1.isListening then (s1, [], false)
  else if micGranted then
    ({ s1 with microphoneStream := true, analysisNode := true, isListening := true },
      [Event.status "监听已开启"], true)
  else (s1, [Event.error "麦克风权限被拒绝"], true)

/-- stopListening from the source: a no-op while idle; otherwise stop the
stream's tracks, disconnect and drop the analyser node, drop the stream,
clear the listening flag and emit a status event.  The ring buffer, the
bit queue and the byte queue are not touched. -/
def stopListening (s : ModemState) : ModemState × List Event :=
  if s.isListening = false then (s, [])
  else
    ({ s with microphoneStream := false, analysisNode := false, isListening := false },
      [Event.status "监听已停止"])

/-- The state effect of send(message): init() may create the audio
context; synthesis and playback touch no session field. -/
def sendState (s : ModemState) : ModemState := initContext s

/-- One decode-loop append of a captured chunk to the ring decode buffer. -/
def addChunk (s : ModemState) (chunk : List ℚ) : ModemState :=
  { s with ringBuffer := addToRingBuffer s.symbolSamples s.ringBuffer chunk }

/-- One accepted symbol flowing through handleDetectedSymbol inside the
decode loop, returning the new state and any message events emitted. -/
def applySymbol (s : ModemState) (v : ℕ) : ModemState × List Event :=
  let d := handleDetectedSymbol s.config.bitsPerSymbol
    ⟨s.bitQueue, s.byteBuffer, []⟩ v
  ({ s with bitQueue := d.bitQueue, byteBuffer := d.byteBuffer },
    d.messages.map Event.message)

/-- The states a SimpleAudioModem instance can actually be in: freshly
constructed, or the result of one of the session operations on a
reachable state. -/
inductive Reachable : ModemState → Prop where
  | ctor (u : ConfigUpdate) : Reachable (initialState u)
  | start (s : ModemState) (g : Bool) : Reachable s →
      Reachable (startListening s g).1
  | stop (s : ModemState) : Reachable s → Reachable (stopListening s).1
  | send (s : ModemState) : Reachable s → Reachable (sendState s)
  | chunk (s : ModemState) (c : List ℚ) : Reachable s → Reachable (addChunk s c)
  | symbol (s : ModemState) (v : ℕ) : Reachable s →
      Reachable (applySymbol s v).1

/-- The methods defined on the SimpleAudioModem class in audio-modem.js,
in source order. -/
def simpleAudioModemMethods : List String :=
  ["constructor", "on", "off", "emit", "init", "startListening",
   "stopListening", "send", "_packetToSamples", "_synthesizeSymbol",
   "_generateGuardTone", "_loopDecode", "_addToRingBuffer",
   "_computeEnergy", "_detectSymbol", "_handleDetectedSymbol",
   "_collectByte", "_goertzel"]

/-- The modem methods invoked by the UI layer in main.js. -/
def mainJsModemCalls : List String :=
  ["startListening", "stopListening", "send", "on", "updateConfig"]

/-- The TextEncoder bytes of an ASCII message: UTF-8 agrees with the code
point for every character below 128, and the claims only evaluate ASCII
messages. -/
def asciiBytes (message : String) : List ℕ :=
  message.toList.map Char.toNat

/-- The end-to-end scenario configuration of the spec (and of main.js:
BASE_MODEM_CONFIG plus the audible preset's frequencies): sampleRate
48000, bitsPerSymbol 4, symbolDuration 0.035 = 7/200, baseFrequency 1500,
frequencyStep 130, guardDuration 0.1 = 1/10. -/
def scenarioUpdate : ConfigUpdate :=
  { sampleRate := some 48000
    bitsPerSymbol := some 4
    symbolDuration := some (7 / 200)
    baseFrequency := some 1500
    frequencyStep := some 130
    guardDuration := some (1 / 10) }

/-- The session configuration of the end-to-end scenario, as the
constructor merges it over DEFAULT_CONFIG. -/
def scenarioConfig : ModemConfig := mergeConfig DEFAULT_CONFIG scenarioUpdate

/-- A session configuration whose caller passed minEnergy = 0.05, above
the decode loop's hardcoded 0.01. -/
def overrideConfig : ModemConfig :=
  mergeConfig DEFAULT_CONFIG { minEnergy := some (1 / 20) }

/-- A concrete listening session holding samples and partial accumulator
contents, as after some decoding activity. -/
def listeningExample : ModemState :=
  { config := DEFAULT_CONFIG
    audioContextRate := some 48000
    microphoneStream := true
    analysisNode := true
    isListening := true
    symbolSamples := 2
    timeDomainBuffer := []
    ringBuffer := [1]
    bitQueue := [5]
    byteBuffer := [7] }

/-- The session obtained by constructing a modem (symbolDuration 0 keeps
the concrete buffers empty) and starting to listen with the microphone
granted. -/
def startedExample : ModemState :=
  (startListening (initialState { symbolDuration := some 0 }) true).1

/-- The typed-array writes of setRange never change the array's length. -/
theorem setRange_length (src : List ℕ) : ∀ (l : List ℕ) (i : ℕ),
    (setRange l i src).length = l.length := by
  induction src with
  | nil => intro l i; rfl
  | cons b bs ih => intro l i; rw [setRange, ih, List.length_set]

/-- A packet built from a payload of n bytes is n + 3 bytes long (START,
the payload, the stray zero byte of the oversized allocation, END). -/
theorem buildPacket_length (payloadBytes : List ℕ) :
    (buildPacket payloadBytes).length = payloadBytes.length + 3 := by
  simp only [buildPacket, List.length_set, setRange_length, List.length_replicate]
  omega

/-- Claim C2 (refuted by the code): buildPacket allocates
`2 + payload.length + 1` bytes, so the packet for payload [0x41] is
[START, 0x41, 0x00, END] — four bytes, not the claimed
START ++ payload ++ END of three bytes, and it contains a zero byte the
claim excludes. -/
theorem C2_packet_layout_bug :
    buildPacket [0x41] = [CONTROL_START, 0x41, 0x00, CONTROL_END] ∧
    (buildPacket [0x41]).length ≠ [0x41].length + 2 := by decide

set_option maxRecDepth 8192 in
/-- Claim C1 (refuted by the code): sending "hi" synthesizes the symbols
of the 5-byte packet [START, 0x68, 0x69, 0x00, END]; decoding those
symbols under a noiseless channel with exact alignment and extracting
frames emits one message whose payload is bytes("hi") ++ [0x00], not
bytes("hi"): the stray zero byte of buildPacket lands inside the frame. -/
theorem C1_roundtrip_hi :
    asciiBytes "hi" = [104, 105] ∧
    packetToSymbols 4 (buildPacket (asciiBytes "hi")) =
      [2, 0, 8, 6, 9, 6, 0, 0, 3, 0] ∧
    (runSymbols 4 initialDecState
      (packetToSymbols 4 (buildPacket (asciiBytes "hi")))).messages =
      [[104, 105, 0]] ∧
    ([[104, 105, 0]] : List (List ℕ)) ≠ [[104, 105]] := by decide

/-- Claim C4 (refuted by the code): main.js invokes modem.updateConfig
when applying a channel preset, but the SimpleAudioModem class defines no
updateConfig method, so the call throws at the page's initial
applyChannel. -/
theorem C4_updateConfig_missing :
    "updateConfig" ∈ mainJsModemCalls ∧
    "updateConfig" ∉ simpleAudioModemMethods := by decide

/-- One unfolding step of the scan in idle state. -/
theorem extractFramesGo_cons_idle (b : ℕ) (rest cur : List ℕ) :
    extractFramesGo (b :: rest) false cur =
      if b = CONTROL_START then extractFramesGo rest true []
      else extractFramesGo rest false cur := rfl

/-- One unfolding step of the scan in collecting state. -/
theorem extractFramesGo_cons_collecting (b : ℕ) (rest cur : List ℕ) :
    extractFramesGo (b :: rest) true cur =
      if b = CONTROL_END then cur :: extractFramesGo rest false []
      else extractFramesGo rest true (cur ++ [b]) := rfl

/-- While idle, a stream without the START byte never enters collecting
state, so the scan returns no frames. -/
theorem extractFramesGo_no_start (buf : List ℕ) :
    ∀ cur : List ℕ, CONTROL_START ∉ buf → extractFramesGo buf false cur = [] := by
  induction buf with
  | nil => intro cur _; rfl
  | cons b rest ih =>
    intro cur h
    rw [List.mem_cons, not_or] at h
    rw [extractFramesGo, if_neg (fun hb => h.1 hb.symm)]
    exact ih cur h.2

/-- While collecting, every byte except END is appended to the current
span; the first END closes the frame `cur ++ p`. -/
theorem extractFramesGo_collect (p : List ℕ) :
    CONTROL_END ∉ p → ∀ (l cur : List ℕ),
      extractFramesGo (p ++ CONTROL_END :: l) true cur =
        (cur ++ p) :: extractFramesGo l false [] := by
  induction p with
  | nil => intro _ l cur; rw [List.nil_append, extractFramesGo, if_pos rfl, List.append_nil]
  | cons b rest ih =>
    intro h l cur
    rw [List.mem_cons, not_or] at h
    rw [List.cons_append, extractFramesGo, if_neg (fun hb => h.1 hb.symm),
      ih h.2 l (cur ++ [b]), List.append_assoc, List.singleton_append]

/-- Frames produced by the scan never contain the END byte: END always
closes the current span instead of being collected. -/
theorem extractFramesGo_no_end (buf : List ℕ) :
    ∀ (c : Bool) (cur : List ℕ), CONTROL_END ∉ cur →
      ∀ f ∈ extractFramesGo buf c cur, CONTROL_END ∉ f := by
  induction buf with
  | nil => intro c cur _ f hf; cases c <;> simp [extractFramesGo] at hf
  | cons b rest ih =>
    intro c cur hcur f hf
    cases c with
    | false =>
      rw [extractFramesGo] at hf
      by_cases hb : b = CONTROL_START
      · rw [if_pos hb] at hf
        exact ih true [] (by simp) f hf
      · rw [if_neg hb] at hf
        exact ih false cur hcur f hf
    | true =>
      rw [extractFramesGo] at hf
      by_cases hb : b = CONTROL_END
      · rw [if_pos hb] at hf
        rcases List.mem_cons.mp hf with h | h
        · exact h ▸ hcur
        · exact ih false [] (by simp) f h
      · rw [if_neg hb] at hf
        refine ih true (cur ++ [b]) ?_ f hf
        rw [List.mem_append, not_or]
        exact ⟨hcur, fun h2 => hb ((List.mem_singleton.mp h2).symm)⟩

/-- Claim C6 counterexample: scanning [START, START, END] yields the
frame [START] — a returned frame can contain the START sentinel byte,
contrary to the claim that no frame contains a sentinel. -/
theorem C6_frame_with_sentinel :
    extractFrames [CONTROL_START, CONTROL_START, CONTROL_END] = [[CONTROL_START]] ∧
    CONTROL_START ∈ [CONTROL_START] := by decide

/-- Claim C6 (amended): scanning [START, 0x41, 0x42, END] yields exactly
the frame [0x41, 0x42]; a stream without START yields no frames; the
frames of consecutive complete spans whose payloads avoid the END byte
are all returned in stream order; and no returned frame ever contains the
END byte (a payload byte equal to START, however, is collected into the
frame, as the counterexample shows). -/
theorem C6_frame_extraction :
    extractFrames [CONTROL_START, 0x41, 0x42, CONTROL_END] = [[0x41, 0x42]] ∧
    (∀ buf : List ℕ, CONTROL_START ∉ buf → extractFrames buf = []) ∧
    (∀ ps : List (List ℕ), (∀ p ∈ ps, CONTROL_END ∉ p) →
      extractFrames (ps.flatMap fun p => CONTROL_START :: p ++ [CONTROL_END]) = ps) ∧
    (∀ (buf : List ℕ) (f : List ℕ), f ∈ extractFrames buf → CONTROL_END ∉ f) := by
  refine ⟨by decide, ?_, ?_, ?_⟩
  · intro buf h
    exact extractFramesGo_no_start buf [] h
  · intro ps
    induction ps with
    | nil => intro _; rfl
    | cons p rest ih =>
      intro h
      rw [List.flatMap_cons, extractFrames, List.append_assoc, List.cons_append,
        extractFramesGo_cons_idle, if_pos rfl, List.singleton_append,
        extractFramesGo_collect p (h p (List.mem_cons_self p rest)) _ [],
        List.nil_append]
      exact congrArg (p :: ·) (ih fun q hq => h q (List.mem_cons_of_mem p hq))
  · intro buf f hf
    exact extractFramesGo_no_end buf false [] (by simp) f hf

/-- Claim C6 witness: two consecutive spans with payloads [0x41] and
[0x42] are both extracted, in stream order. -/
theorem C6_two_spans :
    extractFrames ([[0x41], [0x42]].flatMap
      fun p => CONTROL_START :: p ++ [CONTROL_END]) = [[0x41], [0x42]] :=
  C6_frame_extraction.2.2.1 [[0x41], [0x42]] (by decide)

/-- Claim C7: whenever the scan of the byte queue performed by collectByte
finds at least one complete frame, exactly one message is emitted and it
carries the last extracted frame's payload; both the bit queue and the
byte queue are cleared completely in the same step. -/
theorem C7_most_recent_wins (st : DecState) (byte : ℕ) (f : List ℕ)
    (h : (extractFrames (pushBounded st.byteBuffer byte)).getLast? = some f) :
    collectByte st byte = ⟨[], [], st.messages ++ [f]⟩ := by
  simp only [collectByte, h]

/-- Claim C7 witness: the queue [START, 0x41, END, START, 0x42] followed
by END contains two complete frames; only the most recent payload [0x42]
is surfaced, and both accumulators come back empty. -/
theorem C7_scan_example :
    collectByte ⟨[6], [CONTROL_START, 0x41, CONTROL_END, CONTROL_START, 0x42], []⟩
      CONTROL_END = ⟨[], [], [[0x42]]⟩ :=
  C7_most_recent_wins ⟨[6], [CONTROL_START, 0x41, CONTROL_END, CONTROL_START, 0x42], []⟩
    CONTROL_END [0x42] (by decide)

/-- One append to the ring buffer keeps exactly the most recent
`symbolSamples * 64` samples of buffer-then-chunk. -/
theorem addToRingBuffer_eq (ss : ℕ) (buf c : List ℚ) :
    addToRingBuffer ss buf c = lastN (ss * 64) (buf ++ c) := by
  unfold addToRingBuffer lastN
  by_cases h : ss * 64 < (buf ++ c).length
  · rw [if_pos h]
  · rw [if_neg h, Nat.sub_eq_zero_of_le (not_lt.mp h), List.drop_zero]

/-- The most-recent-n suffix never exceeds n entries. -/
theorem lastN_length_le (n : ℕ) (l : List ℚ) : (lastN n l).length ≤ n := by
  simp only [lastN, List.length_drop]
  omega

/-- A list already within the bound is its own most-recent-n suffix. -/
theorem lastN_of_le (n : ℕ) (l : List ℚ) (h : l.length ≤ n) : lastN n l = l := by
  rw [lastN, Nat.sub_eq_zero_of_le h, List.drop_zero]

/-- Truncating to the most recent n entries before appending more data
yields the same most-recent-n suffix as keeping everything. -/
theorem lastN_append_absorb (n : ℕ) (a b : List ℚ) :
    lastN n (lastN n a ++ b) = lastN n (a ++ b) := by
  rcases le_or_lt a.length n with h | h
  · rw [lastN_of_le n a h]
  · unfold lastN
    rw [← List.drop_append_of_le_length (Nat.sub_le a.length n), List.drop_drop]
    congr 1
    simp only [List.length_drop, List.length_append]
    omega

/-- Claim C8: after any sequence of appends of arbitrary chunks, the ring
decode buffer holds at most `symbolSamples * 64` samples, and its content
is exactly the most recent samples of everything appended, in arrival
order (oldest evicted first). -/
theorem C8_ring_buffer_invariant (ss : ℕ) (start : List ℚ)
    (chunks : List (List ℚ)) (h : start.length ≤ ss * 64) :
    (chunks.foldl (addToRingBuffer ss) start).length ≤ ss * 64 ∧
    chunks.foldl (addToRingBuffer ss) start =
      lastN (ss * 64) (start ++ chunks.flatten) := by
  have main : ∀ (cs : List (List ℚ)) (init : List ℚ), init.length ≤ ss * 64 →
      cs.foldl (addToRingBuffer ss) init = lastN (ss * 64) (init ++ cs.flatten) := by
    intro cs
    induction cs with
    | nil =>
      intro init hinit
      rw [List.foldl_nil, List.flatten_nil, List.append_nil, lastN_of_le _ _ hinit]
    | cons c rest ih =>
      intro init hinit
      rw [List.foldl_cons, List.flatten_cons, addToRingBuffer_eq,
        ih _ (lastN_length_le _ _), lastN_append_absorb, List.append_assoc]
  refine ⟨?_, main chunks start h⟩
  rw [main chunks start h]
  exact lastN_length_le _ _

/-- Claim C8 witness: two appends to an empty buffer with symbolSamples 1
stay within the 64-sample bound. -/
theorem C8_two_appends :
    ([] : List ℚ).length ≤ 1 * 64 ∧
    (([[1], [2]] : List (List ℚ)).foldl (addToRingBuffer 1) []).length ≤ 1 * 64 ∧
    ([[1], [2]] : List (List ℚ)).foldl (addToRingBuffer 1) [] =
      lastN (1 * 64) ([] ++ ([[1], [2]] : List (List ℚ)).flatten) :=
  ⟨by decide, C8_ring_buffer_invariant 1 [] [[1], [2]] (by decide)⟩

/-- Claim C9 counterexample: stopping the listening session leaves the
ring buffer and the bit/byte accumulators exactly as they were, refuting
the claim that stop() discards them. -/
theorem C9_buffers_survive_stop :
    (stopListening listeningExample).1.isListening = false ∧
    (stopListening listeningExample).1.ringBuffer = [1] ∧
    (stopListening listeningExample).1.bitQueue = [5] ∧
    (stopListening listeningExample).1.byteBuffer = [7] ∧
    (stopListening listeningExample).1.ringBuffer ≠ [] := by
  refine ⟨rfl, rfl, rfl, rfl, ?_⟩
  intro h
  exact List.cons_ne_nil 1 [] (rfl.trans h)

/-- Claim C9 (amended): stop() is a no-op while idle; it always leaves
the session idle; from a listening state it releases the microphone
stream and the analyser node; it never touches the ring buffer or the
bit/byte accumulators; and stopping twice leaves the same observable
state and emits nothing the second time. -/
theorem C9_stop_idempotent (s : ModemState) :
    (s.isListening = false → stopListening s = (s, [])) ∧
    (stopListening s).1.isListening = false ∧
    (s.isListening = true → (stopListening s).1.microphoneStream = false ∧
      (stopListening s).1.analysisNode = false) ∧
    ((stopListening s).1.ringBuffer = s.ringBuffer ∧
      (stopListening s).1.bitQueue = s.bitQueue ∧
      (stopListening s).1.byteBuffer = s.byteBuffer) ∧
    stopListening (stopListening s).1 = ((stopListening s).1, []) := by
  cases hb : s.isListening with
  | false => simp [stopListening, hb]
  | true => simp [stopListening, hb]

/-- Claim C9 witness: stopping the concrete listening session releases
the microphone stream and the analyser node. -/
theorem C9_stop_example :
    listeningExample.isListening = true ∧
    (stopListening listeningExample).1.microphoneStream = false ∧
    (stopListening listeningExample).1.analysisNode = false :=
  ⟨rfl, ((C9_stop_idempotent listeningExample).2.2.1 rfl).1,
    ((C9_stop_idempotent listeningExample).2.2.1 rfl).2⟩

/-- init() always leaves an AudioContext in place: it creates one exactly
when none exists. -/
theorem initContext_rate_isSome (s : ModemState) :
    (initContext s).audioContextRate.isSome := by
  unfold initContext
  by_cases h : s.audioContextRate.isSome
  · rw [if_pos h]; exact h
  · rw [if_neg h]; rfl

/-- Every reachable state with the listening flag set also holds an
AudioContext: startListening creates it through init() before it ever
sets the flag, and no operation discards it while listening. -/
theorem reachable_listening_context (s : ModemState) (hr : Reachable s) :
    s.isListening = true → s.audioContextRate.isSome := by
  induction hr with
  | ctor u => intro h; exact absurd h (by rw [initialState]; exact Bool.false_ne_true)
  | start s g hr ih =>
    intro _
    unfold startListening
    by_cases h1 : (initContext s).isListening
    · rw [if_pos h1]; exact initContext_rate_isSome s
    · rw [if_neg h1]
      cases g with
      | true => rw [if_pos rfl]; exact initContext_rate_isSome s
      | false => rw [if_neg Bool.false_ne_true]; exact initContext_rate_isSome s
  | stop s hr ih =>
    intro h
    unfold stopListening at h ⊢
    by_cases hb : s.isListening = false
    · rw [if_pos hb] at h ⊢; exact ih h
    · rw [if_neg hb] at h; exact absurd h Bool.false_ne_true
  | send s hr ih =>
    intro _
    unfold sendState
    exact initContext_rate_isSome s
  | chunk s c hr ih =>
    intro h
    exact ih h
  | symbol s v hr ih =>
    intro h
    exact ih h

/-- Claim C10: calling startListening on a reachable session that is
already listening changes nothing: the state is returned as it was, no
event is emitted, and the capture device is not requested again. -/
theorem C10_start_while_listening (s : ModemState) (g : Bool)
    (hr : Reachable s) (h : s.isListening = true) :
    startListening s g = (s, [], false) := by
  have hctx : initContext s = s := by
    unfold initContext
    rw [if_pos (reachable_listening_context s hr h)]
  unfold startListening
  dsimp only
  rw [hctx, if_pos h]

/-- Claim C10 witness: a freshly started session is listening, and a
second startListening call returns it unchanged with no events and no
second capture-device request. -/
theorem C10_second_start_noop :
    startedExample.isListening = true ∧
    startListening startedExample true = (startedExample, [], false) :=
  ⟨rfl, C10_start_while_listening startedExample true
    (Reachable.start (initialState { symbolDuration := some 0 }) true
      (Reachable.ctor { symbolDuration := some 0 }))
    rfl⟩

/-- The scenario session's symbol sample count is
round(48000 × 0.035) = 1680. -/
theorem scenario_symbolSamples : sessionSymbolSamples scenarioConfig = 1680 := by
  show (jsRound (scenarioConfig.sampleRate * scenarioConfig.symbolDuration)).toNat = 1680
  have : jsRound (scenarioConfig.sampleRate * scenarioConfig.symbolDuration) = 1680 := by
    show jsRound ((48000 : ℚ) * (7 / 200)) = 1680
    norm_num [jsRound]
  rw [this]
  rfl

/-- The scenario session's guard sample count is round(48000 × 0.1) = 4800. -/
theorem scenario_guardSamples :
    (jsRound (scenarioConfig.sampleRate * scenarioConfig.guardDuration)).toNat = 4800 := by
  have : jsRound (scenarioConfig.sampleRate * scenarioConfig.guardDuration) = 4800 := by
    show jsRound ((48000 : ℚ) * (1 / 10)) = 4800
    norm_num [jsRound]
  rw [this]
  rfl

/-- Claim C3 counterexample: under the scenario configuration, sending
"hi" produces a waveform of 26400 samples, not the claimed
2 × round(48000 × 0.1) + 4 × round(48000 × 0.035) = 16320: the packet
carries 5 bytes (START, two payload bytes, the stray zero byte, END), so
10 symbols are synthesized, not 4. -/
theorem C3_length_mismatch :
    sendWaveformLength scenarioConfig (asciiBytes "hi") = 26400 ∧
    2 * (jsRound ((48000 : ℚ) * (1 / 10))).toNat +
      4 * (jsRound ((48000 : ℚ) * (7 / 200))).toNat = 16320 ∧
    (26400 : ℚ) ≠ 16320 := by
  refine ⟨?_, ?_, by norm_num⟩
  · show packetToSamplesTotal scenarioConfig scenarioConfig.sampleRate
      (sessionSymbolSamples scenarioConfig) (buildPacket (asciiBytes "hi")).length = 26400
    rw [scenario_symbolSamples]
    have hlen : (buildPacket (asciiBytes "hi")).length = 5 := by decide
    rw [hlen]
    unfold packetToSamplesTotal
    rw [scenario_guardSamples]
    show (5 : ℚ) * (8 / ((4 : ℕ) : ℚ)) * 1680 + (4800 : ℚ) * 2 = 26400
    norm_num
  · have h1 : jsRound ((48000 : ℚ) * (1 / 10)) = 4800 := by norm_num [jsRound]
    have h2 : jsRound ((48000 : ℚ) * (7 / 200)) = 1680 := by norm_num [jsRound]
    rw [h1, h2]
    rfl

/-- Claim C3 (amended): under the scenario configuration, sending "hi"
produces a waveform of exactly
2 × round(48000 × 0.1) + 10 × round(48000 × 0.035) = 26400 samples (the
5-byte packet yields 2 symbols per byte), and for every payload the
length is 9600 + (2 × |payload| + 6) × 1680 — a function of the payload's
byte count only, never of its content. -/
theorem C3_waveform_length :
    sendWaveformLength scenarioConfig (asciiBytes "hi") = 26400 ∧
    2 * (jsRound ((48000 : ℚ) * (1 / 10))).toNat +
      10 * (jsRound ((48000 : ℚ) * (7 / 200))).toNat = 26400 ∧
    ∀ payload : List ℕ, sendWaveformLength scenarioConfig payload =
      9600 + (2 * (payload.length : ℚ) + 6) * 1680 := by
  have general : ∀ payload : List ℕ, sendWaveformLength scenarioConfig payload =
      9600 + (2 * (payload.length : ℚ) + 6) * 1680 := by
    intro payload
    show packetToSamplesTotal scenarioConfig scenarioConfig.sampleRate
      (sessionSymbolSamples scenarioConfig) (buildPacket payload).length = _
    rw [scenario_symbolSamples, buildPacket_length]
    unfold packetToSamplesTotal
    rw [scenario_guardSamples]
    show ((payload.length + 3 : ℕ) : ℚ) * (8 / ((4 : ℕ) : ℚ)) * 1680 +
      (4800 : ℚ) * 2 = _
    push_cast
    ring
  refine ⟨?_, ?_, general⟩
  · rw [general (asciiBytes "hi")]
    have : (asciiBytes "hi").length = 2 := by decide
    rw [this]
    norm_num
  · have h1 : jsRound ((48000 : ℚ) * (1 / 10)) = 4800 := by norm_num [jsRound]
    have h2 : jsRound ((48000 : ℚ) * (7 / 200)) = 1680 := by norm_num [jsRound]
    rw [h1, h2]
    rfl

/-- The RMS energy of an all-zero slice is exactly 0. -/
theorem computeEnergy_replicate_zero (n : ℕ) :
    computeEnergy (List.replicate n (0 : ℚ)) = 0 := by
  unfold computeEnergy
  simp

/-- Claim C5 counterexample: a session configured with minEnergy = 0.05
(larger than the hardcoded loop constant) receives a slice of RMS energy
0.03, below the configured threshold, yet the decode loop does not skip
it: the gate compares against the hardcoded 0.01, not against the
session's Configuration. -/
theorem C5_config_threshold_ignored :
    overrideConfig.minEnergy = some (1 / 20) ∧
    computeEnergy (List.replicate 4 ((3 : ℚ) / 100)) < (1 : ℝ) / 20 ∧
    sliceStep overrideConfig 48000 (List.replicate 4 ((3 : ℚ) / 100)) ≠
      SliceOutcome.skipped := by
  have hE : computeEnergy (List.replicate 4 ((3 : ℚ) / 100)) = 3 / 100 := by
    unfold computeEnergy
    simp only [List.map_replicate, List.sum_replicate, List.length_replicate,
      nsmul_eq_mul]
    push_cast
    rw [show ((4 : ℝ) * (3 / 100 * (3 / 100))) / 4 = (3 / 100) ^ 2 by ring]
    exact Real.sqrt_sq (by norm_num)
  refine ⟨rfl, ?_, ?_⟩
  · rw [hE]; norm_num
  · unfold sliceStep
    rw [if_neg]
    · intro h
      exact SliceOutcome.noConfusion h
    · rw [hE]
      intro h
      rw [show ((minEnergyLoop : ℚ) : ℝ) = 1 / 100 by norm_num [minEnergyLoop]] at h
      norm_num at h

/-- Claim C5 (amended): every symbol-length slice whose RMS energy lies
below the decode loop's hardcoded threshold 0.01 is skipped before the
Goertzel filter bank runs (the configured minEnergy is never consulted);
an all-zero slice has RMS energy exactly 0 and is therefore always gated
out, whatever the session's configuration. -/
theorem C5_energy_gate :
    (∀ (cfg : ModemConfig) (rate : ℚ) (slice : List ℚ),
      computeEnergy slice < (minEnergyLoop : ℝ) →
      sliceStep cfg rate slice = SliceOutcome.skipped) ∧
    (∀ n : ℕ, 0 < n → computeEnergy (List.replicate n (0 : ℚ)) = 0) ∧
    (∀ (cfg : ModemConfig) (rate : ℚ) (n : ℕ), 0 < n →
      sliceStep cfg rate (List.replicate n (0 : ℚ)) = SliceOutcome.skipped) := by
  have gate : ∀ (cfg : ModemConfig) (rate : ℚ) (slice : List ℚ),
      computeEnergy slice < (minEnergyLoop : ℝ) →
      sliceStep cfg rate slice = SliceOutcome.skipped := by
    intro cfg rate slice h
    unfold sliceStep
    rw [if_pos h]
  refine ⟨gate, fun n _ => computeEnergy_replicate_zero n, ?_⟩
  intro cfg rate n _
  refine gate cfg rate _ ?_
  rw [computeEnergy_replicate_zero]
  norm_num [minEnergyLoop]

/-- Claim C5 witness: a three-sample silent slice is gated out under the
default configuration. -/
theorem C5_zero_slice_skipped :
    0 < 3 ∧ sliceStep DEFAULT_CONFIG 48000 (List.replicate 3 (0 : ℚ)) =
      SliceOutcome.skipped :=
  ⟨by norm_num, C5_energy_gate.2.2 DEFAULT_CONFIG 48000 3 (by norm_num)⟩
